import Mathlib

/-!
# collins-go: the Collins API client, embedded in Lean

A shallow embedding of `collins/collins.go`.

* Go `string` and `[]byte` contents are Lean `String`s (texts that are valid
  UTF-8; their bytes are those of the UTF-8 encoding). A `[]byte` that may be
  `nil` is an `Option String`: `none` is the nil slice, `some ""` an allocated
  slice of length zero.
* A Go pointer that may be `nil` is an `Option`; a `url.Values` is a Go map and
  may itself be the nil map. Code that may panic returns an `Outcome`.
* Go `error` values are their messages; `nil` is `none`.
* Everything outside the package that decides how a call goes is a field of
  `Env`: which URLs `http.NewRequest` accepts, what the HTTP client answers,
  and what `json.Unmarshal` makes of a non-empty body. What the standard
  library fixes is written out: `url.Values` with `Get`, `Set` and `Encode`,
  the non-nil slice of `ioutil.ReadAll`, and the rejection of the empty input
  by `json.Unmarshal`.
* In `return p, json.Unmarshal(body, &p)` the pointer returned is the one
  `Unmarshal` left in `p`.
* The effects of the package are explicit in `World`: the requests handed to
  the HTTP client, the log lines, and the contents of the package variable
  `defaultParams`.
-/

set_option linter.dupNamespace false

namespace Collins

/-! ## Go values -/

/-- Go error values, represented by their message. -/
abbrev Error := String

/-- Result of running Go code that may panic. -/
inductive Outcome (α : Type) where
  | returned (a : α)
  | panicked (msg : String)
deriving DecidableEq, Repr

/-! ## net/url: `url.Values` -/

/-- An allocated `map[string][]string`, as an association list. The first
entry of a key is the one that counts. -/
abbrev Map := List (String × List String)

/-- Go `v[key]` on an allocated map: the values stored under `key`, or the nil
slice (`[]`) when the key is absent. -/
def Map.index (m : Map) (key : String) : List String :=
  match m.lookup key with
  | some vs => vs
  | none => []

/-- `url.Values.Get` on an allocated map: the first value under `key`, or `""`
when there is none. -/
def Map.Get (m : Map) (key : String) : String :=
  match m.index key with
  | [] => ""
  | v :: _ => v

/-- `url.Values.Set` on an allocated map: `v[key] = []string{value}`. -/
def Map.Set (m : Map) (key value : String) : Map :=
  (key, [value]) :: m.filter (fun e => e.1 != key)

/-- The UTF-8 bytes of a character. -/
def utf8Bytes (c : Char) : List Nat :=
  let n := c.toNat
  if n < 0x80 then [n]
  else if n < 0x800 then [0xC0 + n / 0x40, 0x80 + n % 0x40]
  else if n < 0x10000 then [0xE0 + n / 0x1000, 0x80 + n / 0x40 % 0x40, 0x80 + n % 0x40]
  else [0xF0 + n / 0x40000, 0x80 + n / 0x1000 % 0x40, 0x80 + n / 0x40 % 0x40, 0x80 + n % 0x40]

/-- The bytes of a Go string. -/
def goBytes (s : String) : List Nat :=
  s.data.flatMap utf8Bytes

/-- Lexicographic order on byte sequences. -/
def bytesLess : List Nat → List Nat → Bool
  | _, [] => false
  | [], _ :: _ => true
  | a :: as, b :: bs => if a < b then true else if b < a then false else bytesLess as bs

/-- Go `a < b` on strings: byte-wise lexicographic order, the order of
`sort.Strings`. -/
def stringLess (a b : String) : Bool :=
  bytesLess (goBytes a) (goBytes b)

/-- Insertion of a key into a strictly ascending list of keys. -/
def insertKey (k : String) : List String → List String
  | [] => [k]
  | x :: xs =>
    if stringLess k x then k :: x :: xs
    else if k = x then x :: xs
    else x :: insertKey k xs

/-- The keys of a map in ascending order, each once (`for k := range v`
followed by `sort.Strings`). -/
def Map.sortedKeys (m : Map) : List String :=
  m.foldr (fun e acc => insertKey e.1 acc) []

/-- Go `shouldEscape(c, encodeQueryComponent)`: letters, digits and `-_.~`
are kept, every other byte is escaped. -/
def shouldEscape (b : Nat) : Bool :=
  if (0x61 ≤ b ∧ b ≤ 0x7A) ∨ (0x41 ≤ b ∧ b ≤ 0x5A) ∨ (0x30 ≤ b ∧ b ≤ 0x39) then false
  else if b = 0x2D ∨ b = 0x5F ∨ b = 0x2E ∨ b = 0x7E then false
  else true

/-- One upper-case hexadecimal digit (`"0123456789ABCDEF"[d]`). -/
def upperhex (d : Nat) : Char :=
  if d < 10 then Char.ofNat (0x30 + d) else Char.ofNat (0x41 + (d - 10))

/-- What `url.QueryEscape` writes for one byte. -/
def escapeByte (b : Nat) : List Char :=
  if shouldEscape b then
    if b = 0x20 then ['+'] else ['%', upperhex (b / 16), upperhex (b % 16)]
  else [Char.ofNat b]

/-- `url.QueryEscape`. -/
def QueryEscape (s : String) : String :=
  String.mk ((goBytes s).flatMap escapeByte)

/-- The `key=value` items `url.Values.Encode` writes, in order. -/
def Map.encodeItems (m : Map) : List String :=
  m.sortedKeys.flatMap (fun k => (m.index k).map (fun v => QueryEscape k ++ "=" ++ QueryEscape v))

/-- `url.Values.Encode` on an allocated map: the items joined by `&`. -/
def Map.Encode (m : Map) : String :=
  "&".intercalate m.encodeItems

/-- A `url.Values`: `none` is the nil map. -/
abbrev Values := Option Map

/-- `url.Values.Get`; reading the nil map finds nothing. -/
def Values.Get (v : Values) (key : String) : String :=
  match v with
  | none => ""
  | some m => m.Get key

/-- `url.Values.Encode`; the nil map encodes to `""`. -/
def Values.Encode (v : Values) : String :=
  match v with
  | none => ""
  | some m => m.Encode

/-- `url.Values.Set`; assignment to an entry of the nil map panics. -/
def Values.Set (v : Values) (key value : String) : Outcome Values :=
  match v with
  | none => .panicked "assignment to entry in nil map"
  | some m => .returned (some (m.Set key value))

/-! ## The records of the API -/

/-- The anonymous struct of `AssetState.Status`. -/
structure AssetStateStatus where
  Name : String := ""
  Description : String := ""
deriving DecidableEq, Repr

/-- Go `AssetState`. -/
structure AssetState where
  ID : Int := 0
  Status : AssetStateStatus := {}
  Name : String := ""
  Label : String := ""
  Description : String := ""
deriving DecidableEq, Repr

/-- Go `Status`, the envelope every response carries. -/
structure Status where
  Status : String := ""
deriving DecidableEq, Repr

/-- Go `AssetCommon`. -/
structure AssetCommon where
  ID : Int := 0
  Tag : String := ""
  State : AssetState := {}
  Status : String := ""
  /-- Go field `Type`. -/
  Type_ : String := ""
  Updated : String := ""
  Created : String := ""
  Deleted : String := ""
deriving DecidableEq, Repr

/-- Go `AssetAddress`. -/
structure AssetAddress where
  ID : Int := 0
  Pool : String := ""
  Address : String := ""
  Netmask : String := ""
  Gateway : String := ""
deriving DecidableEq, Repr

/-- The anonymous struct of `AssetDetails.IPMI`. -/
structure IPMI where
  Address : String := ""
  Username : String := ""
  Password : String := ""
deriving DecidableEq, Repr

/-- Go `AssetDetails`. -/
structure AssetDetails where
  Asset : AssetCommon := {}
  Attributes : List (String × List (String × String)) := []
  IPMI : IPMI := {}
  Addresses : List AssetAddress := []
deriving DecidableEq, Repr

/-- Go `Asset`: the embedded `Status` and the details. -/
structure Asset extends Status where
  Data : AssetDetails := {}
deriving DecidableEq, Repr

/-- Go `AssetFlat`: the embedded `Status` and the summary. -/
structure AssetFlat extends Status where
  Data : AssetCommon := {}
deriving DecidableEq, Repr

/-- The anonymous struct of `AssetAddresses.Data`. -/
structure AddressesData where
  Addresses : List AssetAddress := []
deriving DecidableEq, Repr

/-- Go `AssetAddresses`. -/
structure AssetAddresses extends Status where
  Data : AddressesData := {}
deriving DecidableEq, Repr

/-- The anonymous struct of `Assets.Data`. -/
structure AssetsData where
  Data : List AssetDetails := []
deriving DecidableEq, Repr

/-- Go `Assets`. -/
structure Assets extends Status where
  Data : AssetsData := {}
deriving DecidableEq, Repr

/-! ## net/http, io/ioutil, encoding/json -/

/-- An `http.Request` as this package makes it: method, the URL it was built
from, the arguments of `SetBasicAuth` if it was called, and the `Close` flag. -/
structure Request where
  Method : String
  URL : String
  BasicAuth : Option (String × String) := none
  Close : Bool := false
deriving DecidableEq, Repr

/-- An `http.Response`: the status code and what reading `resp.Body` through
gives, namely the bytes delivered and the error that stopped the reading if
that was not the close of the stream. -/
structure Response where
  StatusCode : Int
  Body : String
  BodyErr : Option Error := none
deriving DecidableEq, Repr

/-- What `json.Unmarshal(body, &p)` leaves behind when `p` pointed at a zero
value: the pointer `p` afterwards (`none` when the JSON value `null` reset
it) and the error. -/
abbrev Decoded (α : Type) := Option α × Option Error

/-- The world outside the package. -/
structure Env where
  /-- The error of `http.NewRequest(method, url, nil)`, `none` when the method
  is valid and the URL parses. -/
  NewRequestErr : String → String → Option Error
  /-- `http.Client.Do`, given the requests sent before. -/
  Do : List Request → Request → Except Error Response
  /-- `json.Unmarshal` of a non-empty body into a `*Status`. -/
  decodeStatus : String → Decoded Status
  /-- `json.Unmarshal` of a non-empty body into an `*Asset`. -/
  decodeAsset : String → Decoded Asset
  /-- `json.Unmarshal` of a non-empty body into an `*AssetFlat`. -/
  decodeAssetFlat : String → Decoded AssetFlat
  /-- `json.Unmarshal` of a non-empty body into an `*AssetAddresses`. -/
  decodeAssetAddresses : String → Decoded AssetAddresses
  /-- `json.Unmarshal` of a non-empty body into an `*Assets`. -/
  decodeAssets : String → Decoded Assets

/-- `http.NewRequest(method, url, nil)`: the empty method means `GET`; the
request is built when the method is valid and the URL parses. -/
def NewRequest (env : Env) (method url : String) : Except Error Request :=
  let method := if method = "" then "GET" else method
  match env.NewRequestErr method url with
  | some err => .error err
  | none => .ok { Method := method, URL := url }

/-- `ioutil.ReadAll(resp.Body)`: the buffer is allocated before the first
read, so the slice returned is never nil, also when no byte was read. -/
def ReadAll (resp : Response) : Option String × Option Error :=
  (some resp.Body, resp.BodyErr)

/-- `json.Unmarshal(data, &p)` with `p` pointing at `zero`: the input is
checked for syntax first, and the empty input is rejected there with nothing
decoded; any other input is the decoder's matter. -/
def Unmarshal {α : Type} (zero : α) (decode : String → Decoded α) (data : String) : Decoded α :=
  if data = "" then (some zero, some "unexpected end of JSON input")
  else decode data

/-- Go `%d` of an `int`. -/
def formatInt (n : Int) : String :=
  toString n

/-! ## The package state and the client -/

/-- Go `defaultMaxSize`. -/
def defaultMaxSize : String := "500"

/-- The effects of the package: the requests handed to `http.Client.Do`
(oldest first), the lines written with `log.Printf`, and what the package
variable `defaultParams` points at. -/
structure World where
  trace : List Request := []
  log : List String := []
  defaultParams : Values := some []
deriving DecidableEq, Repr

/-- The package after its initialisation: `defaultParams = &url.Values{}`
followed by `init`, which sets `size` to `defaultMaxSize`. -/
def init : World :=
  { defaultParams := some (Map.Set [] "size" defaultMaxSize) }

/-- The zero `http.Client` that `New` allocates. -/
structure HttpClient where
deriving DecidableEq, Repr

/-- Go `Client`. -/
structure Client where
  client : HttpClient := {}
  user : String
  password : String
  url : String
deriving DecidableEq, Repr

/-- Go `New`. -/
def New (user password url : String) : Client :=
  { client := {}, user := user, password := password, url := url }

/-- Go `Client.Request`: the body and the error, and the world afterwards. -/
def Client.Request (env : Env) (c : Client) (method path : String) (params : Option Values)
    (w : World) : (Option String × Option Error) × World :=
  let url := c.url ++ path
  let url := match params with
    | some v => url ++ "?" ++ v.Encode
    | none => url
  match NewRequest env method url with
  | .error err => ((none, some err), w)
  | .ok req =>
    let w1 := { w with log := w.log ++ ["> " ++ req.URL] }
    let req := { req with BasicAuth := some (c.user, c.password), Close := true }
    let w2 := { w1 with trace := w1.trace ++ [req] }
    match env.Do w1.trace req with
    | .error err => ((none, some err), w2)
    | .ok resp =>
      match ReadAll resp with
      | (_, some err) => ((none, some err), w2)
      | (body, none) =>
        if resp.StatusCode < 200 ∨ resp.StatusCode ≥ 400 then
          ((body, some ("Error " ++ formatInt resp.StatusCode ++ ": " ++ body.getD "")), w2)
        else ((body, none), w2)

/-- Go `Client.GetAssetAddresses`. -/
def Client.GetAssetAddresses (env : Env) (c : Client) (tag : String) (w : World) :
    (Option AssetAddresses × Option Error) × World :=
  match c.Request env "GET" ("/asset/" ++ tag ++ "/addresses") (some w.defaultParams) w with
  | ((_, some err), w1) => ((none, some err), w1)
  | ((body, none), w1) => (Unmarshal {} env.decodeAssetAddresses (body.getD ""), w1)

/-- Go `Client.GetAsset`. -/
def Client.GetAsset (env : Env) (c : Client) (tag : String) (w : World) :
    (Option Asset × Option Error) × World :=
  if tag = "" then ((none, some "Tag required"), w)
  else
    match c.Request env "GET" ("/api/asset/" ++ tag) none w with
    | ((_, some err), w1) => ((none, some err), w1)
    | ((none, none), w1) => ((none, none), w1)
    | ((some body, none), w1) => (Unmarshal {} env.decodeAsset body, w1)

/-- Go `Client.GetAssetFromAddress`; it panics when the decoded pointer is nil. -/
def Client.GetAssetFromAddress (env : Env) (c : Client) (addr : String) (w : World) :
    Outcome (Option Asset × Option Error) × World :=
  match c.Request env "GET" ("/asset/with/address/" ++ addr) none w with
  | ((_, some err), w1) => (.returned (none, some err), w1)
  | ((none, none), w1) => (.returned (none, none), w1)
  | ((some body, none), w1) =>
    match Unmarshal {} env.decodeAssetFlat body with
    | (_, some err) => (.returned (none, some err), w1)
    | (none, none) => (.panicked "invalid memory address or nil pointer dereference", w1)
    | (some asset, none) =>
      let r := c.GetAsset env asset.Data.Tag w1
      (.returned r.1, r.2)

/-- What `FindAssets` leaves: its results (or the panic), what the caller's
pointer points at afterwards, and the world. -/
structure FindResult where
  out : Outcome (Option Assets × Option Error)
  params : Option Values
  world : World

/-- Go `Client.FindAssets`. `params` is the pointer: `none` is the nil
pointer, which panics when dereferenced, and `some none` points at the nil
map, which panics when written to. -/
def Client.FindAssets (env : Env) (c : Client) (params : Option Values) (w : World) : FindResult :=
  match params with
  | none =>
    { out := .panicked "invalid memory address or nil pointer dereference", params := none, world := w }
  | some v =>
    match (if v.Get "size" = "" then v.Set "size" defaultMaxSize else .returned v) with
    | .panicked msg => { out := .panicked msg, params := some v, world := w }
    | .returned v1 =>
      match c.Request env "GET" "/assets" (some v1) w with
      | ((_, some err), w1) => { out := .returned (none, some err), params := some v1, world := w1 }
      | ((body, none), w1) =>
        { out := .returned (Unmarshal {} env.decodeAssets (body.getD "")), params := some v1,
          world := w1 }

/-- Go `Client.FindAllAssets`: `FindAssets` on the pointer `defaultParams`, so
that what `FindAssets` writes is written to the package variable. -/
def Client.FindAllAssets (env : Env) (c : Client) (w : World) :
    Outcome (Option Assets × Option Error) × World :=
  let r := c.FindAssets env (some w.defaultParams) w
  match r.params with
  | some v => (r.out, { r.world with defaultParams := v })
  | none => (r.out, r.world)

/-- Go `Client.AddAssetLog`. -/
def Client.AddAssetLog (env : Env) (c : Client) (tag mtype message : String) (w : World) :
    Option Error × World :=
  let v : Map := []
  let v := v.Set "message" message
  let v := v.Set "type" mtype
  match NewRequest env "PUT" (c.url ++ "/asset/" ++ tag ++ "/log?" ++ v.Encode) with
  | .error err => (some err, w)
  | .ok req =>
    let w1 := { w with log := w.log ++ ["> " ++ req.URL] }
    let req := { req with BasicAuth := some (c.user, c.password) }
    let w2 := { w1 with trace := w1.trace ++ [req] }
    match env.Do w1.trace req with
    | .error err => (some err, w2)
    | .ok resp =>
      if resp.StatusCode ≠ 201 then
        (some ("Status code " ++ formatInt resp.StatusCode ++ " unexpected"), w2)
      else (none, w2)

/-- Go `Client.SetStatus`; it panics when the decoded pointer is nil. -/
def Client.SetStatus (env : Env) (c : Client) (tag status reason : String) (w : World) :
    Outcome (Option Error) × World :=
  let params : Map := []
  let params := params.Set "status" status
  let params := params.Set "reason" reason
  match c.Request env "POST" ("/asset/" ++ tag ++ "/status") (some (some params)) w with
  | ((_, some err), w1) => (.returned (some err), w1)
  | ((body, none), w1) =>
    match Unmarshal {} env.decodeStatus (body.getD "") with
    | (_, some err) =>
      (.returned (some ("Couldn't unmarshal " ++ body.getD "" ++ ": " ++ err)), w1)
    | (none, none) => (.panicked "invalid memory address or nil pointer dereference", w1)
    | (some s, none) =>
      if s.Status ≠ "success:ok" then
        (.returned (some ("Couldn't set status to " ++ status)), w1)
      else (.returned none, w1)

/-! ## Vocabulary of the statements -/

/-- The method a request carries: `http.NewRequest` reads `""` as `GET`. -/
def effectiveMethod (method : String) : String :=
  if method = "" then "GET" else method

/-- The URL `Client.Request` builds from a path and the parameters. -/
def Client.urlOf (c : Client) (path : String) (params : Option Values) : String :=
  match params with
  | some v => c.url ++ path ++ "?" ++ v.Encode
  | none => c.url ++ path

/-- The request `Client.Request` hands to the HTTP client. -/
def Client.requestOf (c : Client) (method url : String) : Collins.Request :=
  { Method := method, URL := url, BasicAuth := some (c.user, c.password), Close := true }

/-- The world after a request was logged and handed to the HTTP client. -/
def World.sent (w : World) (req : Request) : World :=
  { w with log := w.log ++ ["> " ++ req.URL], trace := w.trace ++ [req] }

/-- The status codes `Client.Request` reports as errors. -/
def badStatus (code : Int) : Prop :=
  code < 200 ∨ code ≥ 400

instance (code : Int) : Decidable (badStatus code) := by
  unfold badStatus; infer_instance

/-- From `w` to `w1` the package only sent requests that carry the basic
authentication of `user` and `password`, on top of those sent before. -/
def SentWithAuth (user password : String) (w w1 : World) : Prop :=
  ∃ new : List Request, w1.trace = w.trace ++ new ∧
    ∀ r ∈ new, r.BasicAuth = some (user, password)

/-- The URL `AddAssetLog` builds. -/
def Client.logURL (c : Client) (tag mtype message : String) : String :=
  c.url ++ "/asset/" ++ tag ++ "/log?" ++
    Map.Encode (Map.Set (Map.Set [] "message" message) "type" mtype)

/-- The request `AddAssetLog` hands to the HTTP client. -/
def Client.logRequest (c : Client) (tag mtype message : String) : Collins.Request :=
  { Method := "PUT", URL := c.logURL tag mtype message,
    BasicAuth := some (c.user, c.password), Close := false }

/-- The parameters `SetStatus` sends. -/
def statusParams (status reason : String) : Option Values :=
  some (some (Map.Set (Map.Set [] "status" status) "reason" reason))

/-- The requests `Client.Request` adds to the trace: the one it builds when
`http.NewRequest` lets it, none otherwise. -/
def Client.requestsOf (env : Env) (c : Client) (method url : String) : List Collins.Request :=
  match env.NewRequestErr method url with
  | none => [c.requestOf method url]
  | some _ => []

/-! ## Sequences of calls and the trace -/

/-- One call of an exported operation of the package by a caller. -/
inductive Call where
  | request (c : Client) (method path : String) (params : Option Values)
  | getAssetAddresses (c : Client) (tag : String)
  | getAsset (c : Client) (tag : String)
  | getAssetFromAddress (c : Client) (addr : String)
  | findAllAssets (c : Client)
  | findAssets (c : Client) (params : Option Values)
  | addAssetLog (c : Client) (tag mtype message : String)
  | setStatus (c : Client) (tag status reason : String)

/-- The world after one call. -/
def Call.run (env : Env) : Call → World → World
  | .request c method path params, w => (c.Request env method path params w).2
  | .getAssetAddresses c tag, w => (c.GetAssetAddresses env tag w).2
  | .getAsset c tag, w => (c.GetAsset env tag w).2
  | .getAssetFromAddress c addr, w => (c.GetAssetFromAddress env addr w).2
  | .findAllAssets c, w => (c.FindAllAssets env w).2
  | .findAssets c params, w => (c.FindAssets env params w).world
  | .addAssetLog c tag mtype message, w => (c.AddAssetLog env tag mtype message w).2
  | .setStatus c tag status reason, w => (c.SetStatus env tag status reason w).2

/-- The world after a sequence of calls, made one after the other. -/
def runCalls (env : Env) (calls : List Call) (w : World) : World :=
  calls.foldl (fun w k => k.run env w) w

/-! ## The shared default parameters -/

/-- What `init` leaves in `defaultParams`: the key size with the one value
`500`. -/
def sizeOnly : Values := some [("size", ["500"])]

/-! ## A test server -/

/-- A verdict `http.NewRequest` gives in Go: a URL that starts with a colon
has no protocol scheme and is refused. Every other URL is let through here. -/
def sampleNewRequestErr (_method url : String) : Option Error :=
  if url.data.head? = some ':' then some "missing protocol scheme" else none

/-- The body of a confirming status envelope. -/
def okJSON : String := "\x7b\"status\":\"success:ok\"\x7d"

/-- The body of a refusing status envelope. -/
def refusedJSON : String := "\x7b\"status\":\"error\"\x7d"

/-- The body of an address lookup that found the asset `web01`. -/
def flatJSON : String :=
  "\x7b\"status\":\"success:ok\",\"data\":\x7b\"TAG\":\"web01\"\x7d\x7d"

/-- The body of the details of the asset `web01`. -/
def assetJSON : String :=
  "\x7b\"status\":\"success:ok\",\"data\":\x7b\"ASSET\":\x7b\"TAG\":\"web01\"\x7d\x7d\x7d"

/-- A decoder that knows the two status envelopes above. -/
def sampleDecodeStatus (body : String) : Decoded Status :=
  if body = okJSON then (some { Status := "success:ok" }, none)
  else if body = refusedJSON then (some { Status := "error" }, none)
  else if body = "null" then (none, none)
  else (some {}, some "invalid character")

/-- A decoder that knows the asset details above. -/
def sampleDecodeAsset (body : String) : Decoded Asset :=
  if body = assetJSON then
    (some { Status := "success:ok", Data := { Asset := { Tag := "web01" } } }, none)
  else if body = "null" then (none, none)
  else (some {}, some "invalid character")

/-- A decoder that knows the address lookup above. -/
def sampleDecodeAssetFlat (body : String) : Decoded AssetFlat :=
  if body = flatJSON then (some { Status := "success:ok", Data := { Tag := "web01" } }, none)
  else if body = "null" then (none, none)
  else (some {}, some "invalid character")

/-- A decoder that knows the bare status envelope only. -/
def sampleDecodeAssetAddresses (body : String) : Decoded AssetAddresses :=
  if body = okJSON then (some { Status := "success:ok" }, none)
  else (some {}, some "invalid character")

/-- A decoder that knows the bare status envelope only. -/
def sampleDecodeAssets (body : String) : Decoded Assets :=
  if body = okJSON then (some { Status := "success:ok" }, none)
  else (some {}, some "invalid character")

/-- The environment of the examples, around a given HTTP client. -/
def sampleEnv (answer : List Request → Request → Except Error Response) : Env :=
  { NewRequestErr := sampleNewRequestErr
    Do := answer
    decodeStatus := sampleDecodeStatus
    decodeAsset := sampleDecodeAsset
    decodeAssetFlat := sampleDecodeAssetFlat
    decodeAssetAddresses := sampleDecodeAssetAddresses
    decodeAssets := sampleDecodeAssets }

/-- A server that answers every request alike. -/
def always (code : Int) (body : String) : List Request → Request → Except Error Response :=
  fun _ _ => .ok { StatusCode := code, Body := body }

/-- A network on which no connection comes about. -/
def offline : List Request → Request → Except Error Response :=
  fun _ _ => .error "dial tcp: connection refused"

/-- A server that holds the asset `web01`: the address lookup and the asset
details are answered, everything else is not found. -/
def inventory : List Request → Request → Except Error Response :=
  fun _ req =>
    if req.URL = "http://collins/asset/with/address/10.0.0.1" then
      .ok { StatusCode := 200, Body := flatJSON }
    else if req.URL = "http://collins/api/asset/web01" then
      .ok { StatusCode := 200, Body := assetJSON }
    else .ok { StatusCode := 404, Body := "not found" }

/-- The client of the examples. -/
def sampleClient : Client := New "admin" "secret" "http://collins"

/-! ## `Client.Request` -/

theorem Request_refused (env : Env) (c : Client) (method path : String) (params : Option Values)
    (w : World) (err : Error)
    (hNew : env.NewRequestErr (effectiveMethod method) (c.urlOf path params) = some err) :
    c.Request env method path params w = ((none, some err), w) := by
  cases params <;>
    simp_all [Client.Request, NewRequest, effectiveMethod, Client.urlOf, String.append_assoc]

theorem Request_transport_error (env : Env) (c : Client) (method path : String)
    (params : Option Values) (w : World) (err : Error)
    (hNew : env.NewRequestErr (effectiveMethod method) (c.urlOf path params) = none)
    (hDo : env.Do w.trace (c.requestOf (effectiveMethod method) (c.urlOf path params)) = .error err) :
    c.Request env method path params w =
      ((none, some err), w.sent (c.requestOf (effectiveMethod method) (c.urlOf path params))) := by
  cases params <;>
    simp_all [Client.Request, NewRequest, effectiveMethod, Client.urlOf, Client.requestOf,
      World.sent, String.append_assoc]

theorem Request_read_error (env : Env) (c : Client) (method path : String)
    (params : Option Values) (w : World) (resp : Response) (err : Error)
    (hNew : env.NewRequestErr (effectiveMethod method) (c.urlOf path params) = none)
    (hDo : env.Do w.trace (c.requestOf (effectiveMethod method) (c.urlOf path params)) = .ok resp)
    (hRead : resp.BodyErr = some err) :
    c.Request env method path params w =
      ((none, some err), w.sent (c.requestOf (effectiveMethod method) (c.urlOf path params))) := by
  cases params <;>
    simp_all [Client.Request, NewRequest, effectiveMethod, Client.urlOf, Client.requestOf,
      World.sent, ReadAll, String.append_assoc]

theorem Request_answered (env : Env) (c : Client) (method path : String)
    (params : Option Values) (w : World) (resp : Response)
    (hNew : env.NewRequestErr (effectiveMethod method) (c.urlOf path params) = none)
    (hDo : env.Do w.trace (c.requestOf (effectiveMethod method) (c.urlOf path params)) = .ok resp)
    (hRead : resp.BodyErr = none) :
    c.Request env method path params w =
      ((some resp.Body,
        if badStatus resp.StatusCode then
          some ("Error " ++ formatInt resp.StatusCode ++ ": " ++ resp.Body)
        else none),
       w.sent (c.requestOf (effectiveMethod method) (c.urlOf path params))) := by
  cases params <;>
    (simp_all [Client.Request, NewRequest, effectiveMethod, Client.urlOf, Client.requestOf,
      World.sent, ReadAll, badStatus, String.append_assoc]
     split <;> rfl)

theorem Request_world (env : Env) (c : Client) (method path : String) (params : Option Values)
    (w : World) :
    (c.Request env method path params w).2 =
      match env.NewRequestErr (effectiveMethod method) (c.urlOf path params) with
      | some _ => w
      | none => w.sent (c.requestOf (effectiveMethod method) (c.urlOf path params)) := by
  cases hNew : env.NewRequestErr (effectiveMethod method) (c.urlOf path params) with
  | some err => simp [Request_refused env c method path params w err hNew]
  | none =>
    cases hDo : env.Do w.trace (c.requestOf (effectiveMethod method) (c.urlOf path params)) with
    | error err => simp [Request_transport_error env c method path params w err hNew hDo]
    | ok resp =>
      cases hRead : resp.BodyErr with
      | some err => simp [Request_read_error env c method path params w resp err hNew hDo hRead]
      | none => simp [Request_answered env c method path params w resp hNew hDo hRead]

/-! ## Where the other operations leave the world -/

theorem GetAssetAddresses_world (env : Env) (c : Client) (tag : String) (w : World) :
    (c.GetAssetAddresses env tag w).2 =
      (c.Request env "GET" ("/asset/" ++ tag ++ "/addresses") (some w.defaultParams) w).2 := by
  unfold Client.GetAssetAddresses
  split <;> simp_all

theorem GetAsset_world (env : Env) (c : Client) (tag : String) (w : World) (hTag : tag ≠ "") :
    (c.GetAsset env tag w).2 = (c.Request env "GET" ("/api/asset/" ++ tag) none w).2 := by
  unfold Client.GetAsset
  rw [if_neg hTag]
  split <;> simp_all

theorem FindAssets_settled (env : Env) (c : Client) (v v1 : Values) (w : World)
    (h : (if v.Get "size" = "" then v.Set "size" defaultMaxSize else .returned v) = .returned v1) :
    (c.FindAssets env (some v) w).world = (c.Request env "GET" "/assets" (some v1) w).2 ∧
    (c.FindAssets env (some v) w).params = some v1 := by
  unfold Client.FindAssets
  simp only [h]
  split <;> simp_all

theorem SetStatus_world (env : Env) (c : Client) (tag status reason : String) (w : World) :
    (c.SetStatus env tag status reason w).2 =
      (c.Request env "POST" ("/asset/" ++ tag ++ "/status")
        (some (some (Map.Set (Map.Set [] "status" status) "reason" reason))) w).2 := by
  unfold Client.SetStatus
  simp only []
  split
  · simp_all
  · split <;> [simp_all; simp_all; (split <;> simp_all)]

theorem AddAssetLog_world (env : Env) (c : Client) (tag mtype message : String) (w : World) :
    (c.AddAssetLog env tag mtype message w).2 =
      match env.NewRequestErr "PUT" (c.logURL tag mtype message) with
      | some _ => w
      | none => w.sent (c.logRequest tag mtype message) := by
  unfold Client.AddAssetLog
  cases hNew : env.NewRequestErr "PUT" (c.logURL tag mtype message) with
  | some err => simp_all [NewRequest, Client.logURL]
  | none =>
    simp_all [NewRequest, Client.logURL, Client.logRequest, World.sent]
    split
    · rfl
    · split <;> rfl

theorem GetAssetFromAddress_world (env : Env) (c : Client) (addr : String) (w : World) :
    (c.GetAssetFromAddress env addr w).2 =
        (c.Request env "GET" ("/asset/with/address/" ++ addr) none w).2 ∨
    ∃ tag, (c.GetAssetFromAddress env addr w).2 =
        (c.GetAsset env tag (c.Request env "GET" ("/asset/with/address/" ++ addr) none w).2).2 := by
  unfold Client.GetAssetFromAddress
  split
  · left; simp_all
  · left; simp_all
  · split
    · left; simp_all
    · left; simp_all
    · right
      rename_i asset _
      exact ⟨asset.Data.Tag, by simp_all⟩

/-! ## `url.Values` and `FindAssets` -/

theorem lookup_filter_ne (m : Map) (key k : String) (h : k ≠ key) :
    List.lookup k (m.filter (fun e => e.1 != key)) = List.lookup k m := by
  induction m with
  | nil => rfl
  | cons e rest ih =>
    obtain ⟨a, vs⟩ := e
    by_cases hak : a = key
    · subst hak
      have hka : (k == a) = false := by simpa using h
      simp [List.filter_cons, List.lookup_cons, hka, ih]
    · by_cases hka : k = a
      · simp [List.filter_cons, hak, List.lookup_cons, hka]
      · have hka2 : (k == a) = false := by simpa using hka
        simp [List.filter_cons, hak, List.lookup_cons, hka2, ih]

theorem Map.index_Set_self (m : Map) (key value : String) :
    (m.Set key value).index key = [value] := by
  simp [Map.Set, Map.index, List.lookup_cons]

theorem Map.index_Set_other (m : Map) (key value k : String) (h : k ≠ key) :
    (m.Set key value).index k = m.index k := by
  have hk : (k == key) = false := by simpa using h
  simp [Map.Set, Map.index, List.lookup_cons, hk, lookup_filter_ne m key k h]

theorem Map.Get_of_absent (m : Map) (key : String) (h : m.lookup key = none) :
    m.Get key = "" := by
  simp [Map.Get, Map.index, h]

theorem Request_trace (env : Env) (c : Client) (method path : String) (params : Option Values)
    (w : World) :
    (c.Request env method path params w).2.trace =
      w.trace ++ c.requestsOf env (effectiveMethod method) (c.urlOf path params) ∧
    (c.Request env method path params w).2.defaultParams = w.defaultParams := by
  rw [Request_world]
  unfold Client.requestsOf
  cases env.NewRequestErr (effectiveMethod method) (c.urlOf path params) <;> simp [World.sent]

theorem FindAssets_injects (env : Env) (c : Client) (m : Map) (w : World)
    (h : m.Get "size" = "") :
    (c.FindAssets env (some (some m)) w).world =
      (c.Request env "GET" "/assets" (some (some (m.Set "size" defaultMaxSize))) w).2 ∧
    (c.FindAssets env (some (some m)) w).params = some (some (m.Set "size" defaultMaxSize)) :=
  FindAssets_settled env c (some m) _ w (by simp [Values.Get, Values.Set, h])

theorem FindAssets_keeps (env : Env) (c : Client) (m : Map) (w : World)
    (h : m.Get "size" ≠ "") :
    (c.FindAssets env (some (some m)) w).world =
      (c.Request env "GET" "/assets" (some (some m)) w).2 ∧
    (c.FindAssets env (some (some m)) w).params = some (some m) :=
  FindAssets_settled env c (some m) _ w (by simp [Values.Get, h])

/-! ## Requests and their authentication -/

theorem SentWithAuth.refl (user password : String) (w : World) :
    SentWithAuth user password w w :=
  ⟨[], by simp, by simp⟩

theorem SentWithAuth.trans {user password : String} {w w1 w2 : World}
    (h1 : SentWithAuth user password w w1) (h2 : SentWithAuth user password w1 w2) :
    SentWithAuth user password w w2 := by
  obtain ⟨n1, e1, a1⟩ := h1
  obtain ⟨n2, e2, a2⟩ := h2
  refine ⟨n1 ++ n2, by rw [e2, e1, List.append_assoc], ?_⟩
  intro r hr
  rcases List.mem_append.mp hr with h | h
  · exact a1 r h
  · exact a2 r h

theorem SentWithAuth.of_trace_eq {user password : String} {w w1 w2 : World}
    (h1 : SentWithAuth user password w w1) (h2 : w2.trace = w1.trace) :
    SentWithAuth user password w w2 := by
  obtain ⟨n1, e1, a1⟩ := h1
  exact ⟨n1, by rw [h2, e1], a1⟩

theorem Request_sentWithAuth (env : Env) (c : Client) (method path : String)
    (params : Option Values) (w : World) :
    SentWithAuth c.user c.password w (c.Request env method path params w).2 := by
  refine ⟨_, (Request_trace env c method path params w).1, ?_⟩
  unfold Client.requestsOf
  cases env.NewRequestErr (effectiveMethod method) (c.urlOf path params) <;>
    simp [Client.requestOf]

theorem GetAsset_sentWithAuth (env : Env) (c : Client) (tag : String) (w : World) :
    SentWithAuth c.user c.password w (c.GetAsset env tag w).2 := by
  by_cases hTag : tag = ""
  · subst hTag
    simp [Client.GetAsset, SentWithAuth.refl]
  · rw [GetAsset_world env c tag w hTag]
    exact Request_sentWithAuth env c _ _ _ w

theorem GetAssetFromAddress_sentWithAuth (env : Env) (c : Client) (addr : String) (w : World) :
    SentWithAuth c.user c.password w (c.GetAssetFromAddress env addr w).2 := by
  rcases GetAssetFromAddress_world env c addr w with h | ⟨tag, h⟩
  · rw [h]
    exact Request_sentWithAuth env c _ _ _ w
  · rw [h]
    exact (Request_sentWithAuth env c _ _ _ w).trans (GetAsset_sentWithAuth env c tag _)

theorem FindAssets_world (env : Env) (c : Client) (params : Option Values) (w : World) :
    (c.FindAssets env params w).world = w ∨
    ∃ v, (c.FindAssets env params w).world = (c.Request env "GET" "/assets" (some v) w).2 := by
  cases params with
  | none => left; rfl
  | some v =>
    cases h : (if v.Get "size" = "" then v.Set "size" defaultMaxSize else .returned v) with
    | panicked msg => left; simp [Client.FindAssets, h]
    | returned v1 => right; exact ⟨v1, (FindAssets_settled env c v v1 w h).1⟩

theorem FindAssets_sentWithAuth (env : Env) (c : Client) (params : Option Values) (w : World) :
    SentWithAuth c.user c.password w (c.FindAssets env params w).world := by
  rcases FindAssets_world env c params w with h | ⟨v, h⟩
  · rw [h]
    exact SentWithAuth.refl _ _ w
  · rw [h]
    exact Request_sentWithAuth env c _ _ _ w

theorem FindAllAssets_trace (env : Env) (c : Client) (w : World) :
    (c.FindAllAssets env w).2.trace = (c.FindAssets env (some w.defaultParams) w).world.trace := by
  unfold Client.FindAllAssets
  simp only []
  split <;> rfl

theorem AddAssetLog_sentWithAuth (env : Env) (c : Client) (tag mtype message : String)
    (w : World) :
    SentWithAuth c.user c.password w (c.AddAssetLog env tag mtype message w).2 := by
  rw [AddAssetLog_world]
  cases env.NewRequestErr "PUT" (c.logURL tag mtype message) with
  | some err => exact SentWithAuth.refl _ _ w
  | none => exact ⟨[c.logRequest tag mtype message], by simp [World.sent], by simp [Client.logRequest]⟩

/-! ## The shared default parameters are never changed -/

theorem init_defaultParams : init.defaultParams = sizeOnly := by
  decide

theorem sizeOnly_Encode : sizeOnly.Encode = "size=500" := by
  decide

theorem FindAssets_defaultParams (env : Env) (c : Client) (params : Option Values) (w : World) :
    (c.FindAssets env params w).world.defaultParams = w.defaultParams := by
  rcases FindAssets_world env c params w with h | ⟨v, h⟩
  · rw [h]
  · rw [h, (Request_trace env c _ _ _ w).2]

theorem FindAllAssets_defaultParams (env : Env) (c : Client) (w : World)
    (h : w.defaultParams = sizeOnly) :
    (c.FindAllAssets env w).2.defaultParams = sizeOnly := by
  have hGet : Map.Get [("size", ["500"])] "size" ≠ "" := by decide
  unfold Client.FindAllAssets
  simp only [h, sizeOnly, (FindAssets_keeps env c _ w hGet).2]

theorem Call.run_defaultParams (env : Env) (k : Call) (w : World)
    (h : w.defaultParams = sizeOnly) : (k.run env w).defaultParams = sizeOnly := by
  cases k with
  | request c method path params =>
    simpa [Call.run, (Request_trace env c method path params w).2] using h
  | getAssetAddresses c tag =>
    simp only [Call.run, GetAssetAddresses_world, (Request_trace env c _ _ _ w).2, h]
  | getAsset c tag =>
    by_cases hTag : tag = ""
    · subst hTag
      simpa [Call.run, Client.GetAsset] using h
    · simp only [Call.run, GetAsset_world env c tag w hTag, (Request_trace env c _ _ _ w).2, h]
  | getAssetFromAddress c addr =>
    rcases GetAssetFromAddress_world env c addr w with e | ⟨tag, e⟩
    · simp only [Call.run, e, (Request_trace env c _ _ _ w).2, h]
    · by_cases hTag : tag = ""
      · subst hTag
        simp only [Call.run, e]
        simpa [Client.GetAsset, (Request_trace env c _ _ _ w).2] using h
      · simp only [Call.run, e, GetAsset_world env c tag _ hTag,
          (Request_trace env c _ _ _ _).2, h]
  | findAllAssets c => exact FindAllAssets_defaultParams env c w h
  | findAssets c params => simp only [Call.run, FindAssets_defaultParams, h]
  | addAssetLog c tag mtype message =>
    simp only [Call.run, AddAssetLog_world]
    cases env.NewRequestErr "PUT" (c.logURL tag mtype message) <;> simpa [World.sent] using h
  | setStatus c tag status reason =>
    simp only [Call.run, SetStatus_world, (Request_trace env c _ _ _ w).2, h]

theorem runCalls_defaultParams (env : Env) (calls : List Call) (w : World)
    (h : w.defaultParams = sizeOnly) : (runCalls env calls w).defaultParams = sizeOnly := by
  induction calls generalizing w with
  | nil => simpa [runCalls] using h
  | cons k rest ih =>
    simp only [runCalls, List.foldl_cons]
    exact ih (k.run env w) (Call.run_defaultParams env k w h)

/-! ## The claims -/

/-- C1: `GetAsset` called with the empty tag returns no asset and the error
`Tag required`, and leaves the world as it was: no request is handed to the
HTTP client, whatever the client and the environment are. -/
theorem GetAsset_empty_tag (env : Env) (c : Client) (w : World) :
    (c.GetAsset env "" w).1.1 = none ∧
    (c.GetAsset env "" w).1.2 = some "Tag required" ∧
    (c.GetAsset env "" w).2 = w ∧
    (c.GetAsset env "" w).2.trace = w.trace := by
  simp [Client.GetAsset]

/-- C2: when the request was built, the HTTP client answered and the body was
read to its end, `Request` returns an error exactly when the status code is
below 200 or at least 400; the error is then `Error <code>: <body>`, holding
the status code and the body, and in both cases the body is returned. -/
theorem Request_error_iff_status_outside (env : Env) (c : Client) (method path : String)
    (params : Option Values) (w : World) (resp : Response)
    (hNew : env.NewRequestErr (effectiveMethod method) (c.urlOf path params) = none)
    (hDo : env.Do w.trace (c.requestOf (effectiveMethod method) (c.urlOf path params)) = .ok resp)
    (hRead : resp.BodyErr = none) :
    ((c.Request env method path params w).1.2 ≠ none ↔
        (resp.StatusCode < 200 ∨ resp.StatusCode ≥ 400)) ∧
    (c.Request env method path params w).1.1 = some resp.Body ∧
    ((resp.StatusCode < 200 ∨ resp.StatusCode ≥ 400) →
      (c.Request env method path params w).1.2 =
        some ("Error " ++ formatInt resp.StatusCode ++ ": " ++ resp.Body)) ∧
    (¬ (resp.StatusCode < 200 ∨ resp.StatusCode ≥ 400) →
      (c.Request env method path params w).1 = (some resp.Body, none)) := by
  rw [Request_answered env c method path params w resp hNew hDo hRead]
  by_cases hb : badStatus resp.StatusCode
  · have hb2 := hb
    unfold badStatus at hb2
    simp [hb, hb2]
  · have hb2 := hb
    unfold badStatus at hb2
    simp [hb, hb2]

/-- Witness of C2: a 404 answer with body `not found` to a `GET`. -/
theorem Request_error_iff_status_outside_witness :
    (sampleEnv (always 404 "not found")).NewRequestErr (effectiveMethod "GET")
        (sampleClient.urlOf "/api/asset/web01" none) = none ∧
    (sampleClient.Request (sampleEnv (always 404 "not found")) "GET" "/api/asset/web01" none
        init).1 = (some "not found", some "Error 404: not found") := by
  have h := Request_error_iff_status_outside (sampleEnv (always 404 "not found")) sampleClient
    "GET" "/api/asset/web01" none init { StatusCode := 404, Body := "not found" }
    (by decide) rfl rfl
  refine ⟨by decide, ?_⟩
  exact Prod.ext h.2.1 (h.2.2.1 (by decide))

/-- C3: when the request was built and the HTTP client answered, `AddAssetLog`
succeeds exactly when the status code is 201, whatever the body of the answer
is; any other code, 200 included, gives the error
`Status code <code> unexpected`. -/
theorem AddAssetLog_succeeds_iff_created (env : Env) (c : Client) (tag mtype message : String)
    (w : World) (resp : Response)
    (hNew : env.NewRequestErr "PUT" (c.logURL tag mtype message) = none)
    (hDo : env.Do w.trace (c.logRequest tag mtype message) = .ok resp) :
    ((c.AddAssetLog env tag mtype message w).1 = none ↔ resp.StatusCode = 201) ∧
    (resp.StatusCode ≠ 201 →
      (c.AddAssetLog env tag mtype message w).1 =
        some ("Status code " ++ formatInt resp.StatusCode ++ " unexpected")) := by
  unfold Client.AddAssetLog
  simp_all [NewRequest, Client.logURL, Client.logRequest]
  by_cases h : resp.StatusCode = 201 <;> simp [h]

/-- Witness of C3: a 200 answer is refused and a 201 answer is accepted. -/
theorem AddAssetLog_succeeds_iff_created_witness :
    (sampleEnv (always 200 "")).NewRequestErr "PUT"
        (sampleClient.logURL "web01" "NOTE" "disk swapped") = none ∧
    (sampleClient.AddAssetLog (sampleEnv (always 200 "")) "web01" "NOTE" "disk swapped" init).1
      = some "Status code 200 unexpected" := by
  refine ⟨by decide, ?_⟩
  exact (AddAssetLog_succeeds_iff_created (sampleEnv (always 200 "")) sampleClient
    "web01" "NOTE" "disk swapped" init { StatusCode := 200, Body := "" }
    (by decide) rfl).2 (by decide)

/-- C4: when `SetStatus` got an answer with a status code in [200,400) whose
body was read and decodes as a status envelope, it succeeds exactly when the
status field of the envelope is the string `success:ok`; with any other
status string it returns the error `Couldn't set status to <status>`. -/
theorem SetStatus_succeeds_iff_success_ok (env : Env) (c : Client) (tag status reason : String)
    (w : World) (resp : Response) (s : Status)
    (hNew : env.NewRequestErr "POST"
      (c.urlOf ("/asset/" ++ tag ++ "/status") (statusParams status reason)) = none)
    (hDo : env.Do w.trace (c.requestOf "POST"
      (c.urlOf ("/asset/" ++ tag ++ "/status") (statusParams status reason))) = .ok resp)
    (hRead : resp.BodyErr = none)
    (hCode : 200 ≤ resp.StatusCode ∧ resp.StatusCode < 400)
    (hDecoded : Unmarshal ({} : Status) env.decodeStatus resp.Body = (some s, none)) :
    ((c.SetStatus env tag status reason w).1 = .returned none ↔ s.Status = "success:ok") ∧
    (s.Status ≠ "success:ok" →
      (c.SetStatus env tag status reason w).1 =
        .returned (some ("Couldn't set status to " ++ status))) := by
  have hgood : ¬ badStatus resp.StatusCode := by
    unfold badStatus; omega
  have hreq := Request_answered env c "POST" ("/asset/" ++ tag ++ "/status")
    (statusParams status reason) w resp (by simpa [effectiveMethod] using hNew)
    (by simpa [effectiveMethod] using hDo) hRead
  rw [if_neg hgood] at hreq
  unfold statusParams at hreq
  unfold Client.SetStatus
  simp only [hreq, Option.getD_some, hDecoded]
  by_cases h : s.Status = "success:ok" <;> simp [h]

/-- Witness of C4: a 200 answer whose envelope says `error`. -/
theorem SetStatus_succeeds_iff_success_ok_witness :
    (200 : Int) ≤ 200 ∧ (200 : Int) < 400 ∧
    Unmarshal ({} : Status) (sampleEnv (always 200 refusedJSON)).decodeStatus refusedJSON
      = (some { Status := "error" }, none) ∧
    (sampleClient.SetStatus (sampleEnv (always 200 refusedJSON)) "web01" "Maintenance" "disk"
        init).1 = .returned (some "Couldn't set status to Maintenance") := by
  refine ⟨by decide, by decide, by decide, ?_⟩
  exact (SetStatus_succeeds_iff_success_ok (sampleEnv (always 200 refusedJSON)) sampleClient
    "web01" "Maintenance" "disk" init { StatusCode := 200, Body := refusedJSON }
    { Status := "error" } (by decide) rfl rfl (by decide) (by decide)).2 (by decide)

/-- C5, the claim as stated fails: a client whose base URL is `:` gets no
request built (`http.NewRequest` finds no protocol scheme), so `FindAssets` on
parameters without a size issues no `GET` at all. -/
theorem no_request_for_search_on_bad_base_url :
    List.lookup "size" ([("type", ["SERVER_NODE"])] : Map) = none ∧
    ((New "admin" "secret" ":").FindAssets (sampleEnv (always 200 okJSON))
      (some (some [("type", ["SERVER_NODE"])])) init).world.trace = [] := by
  decide

/-- C5, amended: for parameters (a non-nil pointer to an allocated map) that
have no size key, `FindAssets` sets the size key to `500` in the caller's
parameters and leaves every other key with its values; it then issues one
`GET` on base URL + `/assets?` + the encoding of these parameters when
`http.NewRequest` accepts that URL, and no request when it does not. -/
theorem FindAssets_default_size (env : Env) (c : Client) (m : Map) (w : World)
    (hAbsent : m.lookup "size" = none) :
    (c.FindAssets env (some (some m)) w).params = some (some (m.Set "size" "500")) ∧
    (m.Set "size" "500").index "size" = ["500"] ∧
    (∀ k, k ≠ "size" → (m.Set "size" "500").index k = m.index k) ∧
    (c.FindAssets env (some (some m)) w).world.trace =
      w.trace ++ c.requestsOf env "GET" (c.url ++ "/assets" ++ "?" ++ (m.Set "size" "500").Encode) := by
  obtain ⟨hw, hp⟩ := FindAssets_injects env c m w (Map.Get_of_absent m "size" hAbsent)
  refine ⟨by simpa [defaultMaxSize] using hp, Map.index_Set_self m "size" "500",
    fun k hk => Map.index_Set_other m "size" "500" k hk, ?_⟩
  rw [hw, (Request_trace env c "GET" "/assets" _ w).1]
  simp [effectiveMethod, Client.urlOf, Values.Encode, defaultMaxSize]

/-- Witness of C5: a search by type alone goes out with `size=500` added. -/
theorem FindAssets_default_size_witness :
    List.lookup "size" ([("type", ["SERVER_NODE"])] : Map) = none ∧
    (sampleClient.FindAssets (sampleEnv (always 200 okJSON))
      (some (some [("type", ["SERVER_NODE"])])) init).world.trace =
      [sampleClient.requestOf "GET" "http://collins/assets?size=500&type=SERVER_NODE"] := by
  refine ⟨by decide, ?_⟩
  exact (FindAssets_default_size (sampleEnv (always 200 okJSON)) sampleClient
    [("type", ["SERVER_NODE"])] init (by decide)).2.2.2

/-- C6, the claim as stated fails: parameters in which the key size is present
with the empty string as its value are not preserved, `FindAssets` overwrites
them with the default and the request carries `size=500`. -/
theorem empty_size_is_overwritten :
    List.lookup "size" ([("size", [""])] : Map) = some [""] ∧
    (sampleClient.FindAssets (sampleEnv (always 200 okJSON))
      (some (some [("size", [""])])) init).params = some (some [("size", ["500"])]) ∧
    (sampleClient.FindAssets (sampleEnv (always 200 okJSON))
      (some (some [("size", [""])])) init).world.trace =
      [sampleClient.requestOf "GET" "http://collins/assets?size=500"] := by
  decide

/-- C6, amended: for parameters whose first size value is not the empty
string, `FindAssets` leaves the caller's parameters as they are, and the
request it issues (one `GET`, issued when `http.NewRequest` accepts the URL)
is on base URL + `/assets?` + the encoding of exactly the caller's
parameters, so that it carries the caller's size values. -/
theorem FindAssets_keeps_size (env : Env) (c : Client) (m : Map) (w : World)
    (hSize : m.Get "size" ≠ "") :
    (c.FindAssets env (some (some m)) w).params = some (some m) ∧
    (c.FindAssets env (some (some m)) w).world.trace =
      w.trace ++ c.requestsOf env "GET" (c.url ++ "/assets" ++ "?" ++ m.Encode) := by
  obtain ⟨hw, hp⟩ := FindAssets_keeps env c m w hSize
  refine ⟨hp, ?_⟩
  rw [hw, (Request_trace env c "GET" "/assets" _ w).1]
  simp [effectiveMethod, Client.urlOf, Values.Encode]

/-- Witness of C6: a search with `size=10` goes out with `size=10`. -/
theorem FindAssets_keeps_size_witness :
    Map.Get [("size", ["10"])] "size" ≠ "" ∧
    (sampleClient.FindAssets (sampleEnv (always 200 okJSON))
      (some (some [("size", ["10"])])) init).params = some (some [("size", ["10"])]) ∧
    (sampleClient.FindAssets (sampleEnv (always 200 okJSON))
      (some (some [("size", ["10"])])) init).world.trace =
      [sampleClient.requestOf "GET" "http://collins/assets?size=10"] := by
  refine ⟨by decide, ?_⟩
  exact FindAssets_keeps_size (sampleEnv (always 200 okJSON)) sampleClient
    [("size", ["10"])] init (by decide)

/-- C10: whatever operation a client made by `New user password url` runs
(`Request`, `GetAsset`, `GetAssetFromAddress`, `GetAssetAddresses`,
`FindAssets`, `FindAllAssets`, `SetStatus`, `AddAssetLog`), the trace
afterwards is the trace before followed by the requests of this operation,
and each of these carries the basic authentication of exactly `user` and
`password`. -/
theorem every_request_carries_basic_auth (env : Env) (user password url : String) (w : World) :
    (∀ method path params,
      SentWithAuth user password w ((New user password url).Request env method path params w).2) ∧
    (∀ tag, SentWithAuth user password w ((New user password url).GetAsset env tag w).2) ∧
    (∀ addr,
      SentWithAuth user password w ((New user password url).GetAssetFromAddress env addr w).2) ∧
    (∀ tag,
      SentWithAuth user password w ((New user password url).GetAssetAddresses env tag w).2) ∧
    (∀ params,
      SentWithAuth user password w ((New user password url).FindAssets env params w).world) ∧
    SentWithAuth user password w ((New user password url).FindAllAssets env w).2 ∧
    (∀ tag status reason,
      SentWithAuth user password w ((New user password url).SetStatus env tag status reason w).2) ∧
    (∀ tag mtype message,
      SentWithAuth user password w
        ((New user password url).AddAssetLog env tag mtype message w).2) := by
  refine ⟨?_, ?_, ?_, ?_, ?_, ?_, ?_, ?_⟩
  · intro method path params
    exact Request_sentWithAuth env (New user password url) method path params w
  · intro tag
    exact GetAsset_sentWithAuth env (New user password url) tag w
  · intro addr
    exact GetAssetFromAddress_sentWithAuth env (New user password url) addr w
  · intro tag
    rw [GetAssetAddresses_world]
    exact Request_sentWithAuth env (New user password url) _ _ _ w
  · intro params
    exact FindAssets_sentWithAuth env (New user password url) params w
  · exact (FindAssets_sentWithAuth env (New user password url) (some w.defaultParams) w).of_trace_eq
      (FindAllAssets_trace env (New user password url) w)
  · intro tag status reason
    rw [SetStatus_world]
    exact Request_sentWithAuth env (New user password url) _ _ _ w
  · intro tag mtype message
    exact AddAssetLog_sentWithAuth env (New user password url) tag mtype message w

/-- C7, the claim as stated fails: on a network where no connection comes
about, `GetAssetFromAddress` returns the error of the first request and has
handed one request to the HTTP client, not two. -/
theorem single_request_when_lookup_fails :
    sampleClient.GetAssetFromAddress (sampleEnv offline) "10.0.0.1" init =
      (.returned (none, some "dial tcp: connection refused"),
       init.sent (sampleClient.requestOf "GET" "http://collins/asset/with/address/10.0.0.1")) ∧
    (sampleClient.GetAssetFromAddress (sampleEnv offline) "10.0.0.1" init).2.trace.length
      = 1 := by
  decide

/-- C7, amended: when the first request, a `GET` on base URL +
`/asset/with/address/` + address, is built and answered with a status code in
[200,400) and a body that is read and decodes to a flat asset with a
non-empty tag, and `http.NewRequest` accepts base URL + `/api/asset/` + that
tag, `GetAssetFromAddress` hands exactly these two requests to the HTTP
client, in this order, and its result and the world it leaves are those of
`GetAsset` on the decoded tag, run after the first request. -/
theorem GetAssetFromAddress_two_requests (env : Env) (c : Client) (addr : String) (w : World)
    (resp : Response) (flat : AssetFlat)
    (hNew : env.NewRequestErr "GET" (c.url ++ "/asset/with/address/" ++ addr) = none)
    (hDo : env.Do w.trace (c.requestOf "GET" (c.url ++ "/asset/with/address/" ++ addr))
      = .ok resp)
    (hRead : resp.BodyErr = none)
    (hCode : 200 ≤ resp.StatusCode ∧ resp.StatusCode < 400)
    (hDecoded : Unmarshal ({} : AssetFlat) env.decodeAssetFlat resp.Body = (some flat, none))
    (hTag : flat.Data.Tag ≠ "")
    (hNew2 : env.NewRequestErr "GET" (c.url ++ "/api/asset/" ++ flat.Data.Tag) = none) :
    (c.GetAssetFromAddress env addr w).2.trace =
      w.trace ++ [c.requestOf "GET" (c.url ++ "/asset/with/address/" ++ addr),
                  c.requestOf "GET" (c.url ++ "/api/asset/" ++ flat.Data.Tag)] ∧
    (c.GetAssetFromAddress env addr w).1 =
      .returned (c.GetAsset env flat.Data.Tag
        (w.sent (c.requestOf "GET" (c.url ++ "/asset/with/address/" ++ addr)))).1 ∧
    (c.GetAssetFromAddress env addr w).2 =
      (c.GetAsset env flat.Data.Tag
        (w.sent (c.requestOf "GET" (c.url ++ "/asset/with/address/" ++ addr)))).2 := by
  have hgood : ¬ badStatus resp.StatusCode := by
    unfold badStatus; omega
  have hreq := Request_answered env c "GET" ("/asset/with/address/" ++ addr) none w resp
    (by simpa [effectiveMethod, Client.urlOf, String.append_assoc] using hNew)
    (by simpa [effectiveMethod, Client.urlOf, String.append_assoc] using hDo) hRead
  rw [if_neg hgood] at hreq
  have hrun : c.GetAssetFromAddress env addr w =
      (.returned (c.GetAsset env flat.Data.Tag
        (w.sent (c.requestOf "GET" (c.url ++ "/asset/with/address/" ++ addr)))).1,
       (c.GetAsset env flat.Data.Tag
        (w.sent (c.requestOf "GET" (c.url ++ "/asset/with/address/" ++ addr)))).2) := by
    unfold Client.GetAssetFromAddress
    simp only [hreq, hDecoded]
    simp [effectiveMethod, Client.urlOf, String.append_assoc]
  refine ⟨?_, by rw [hrun], by rw [hrun]⟩
  rw [hrun]
  simp only []
  rw [GetAsset_world env c _ _ hTag, (Request_trace env c _ _ _ _).1]
  have hNew3 : env.NewRequestErr "GET" (c.url ++ ("/api/asset/" ++ flat.Data.Tag)) = none := by
    rw [← String.append_assoc]; exact hNew2
  simp [Client.requestsOf, effectiveMethod, Client.urlOf, World.sent, hNew3,
    String.append_assoc]

/-- Witness of C7: the lookup of `10.0.0.1` finds `web01`, whose details are
fetched next. -/
theorem GetAssetFromAddress_two_requests_witness :
    Unmarshal ({} : AssetFlat) (sampleEnv inventory).decodeAssetFlat flatJSON
      = (some { Status := "success:ok", Data := { Tag := "web01" } }, none) ∧
    (sampleClient.GetAssetFromAddress (sampleEnv inventory) "10.0.0.1" init).2.trace =
      [sampleClient.requestOf "GET" "http://collins/asset/with/address/10.0.0.1",
       sampleClient.requestOf "GET" "http://collins/api/asset/web01"] := by
  refine ⟨by decide, ?_⟩
  exact (GetAssetFromAddress_two_requests (sampleEnv inventory) sampleClient "10.0.0.1" init
    { StatusCode := 200, Body := flatJSON }
    { Status := "success:ok", Data := { Tag := "web01" } }
    (by decide) rfl rfl (by decide) (by decide) (by decide) (by decide)).1

/-- C8, what the code does: for a non-empty tag, when the request is answered
with a status code in [200,400) and a body of length zero, `GetAsset` does
not return the nil asset with the nil error: the body read is an allocated
slice, so the test `body == nil` fails, the empty input goes to
`json.Unmarshal`, and `GetAsset` returns the pointer to the zero `Asset`
together with the error `unexpected end of JSON input`. -/
theorem GetAsset_empty_body (env : Env) (c : Client) (tag : String) (w : World)
    (resp : Response)
    (hTag : tag ≠ "")
    (hNew : env.NewRequestErr "GET" (c.url ++ "/api/asset/" ++ tag) = none)
    (hDo : env.Do w.trace (c.requestOf "GET" (c.url ++ "/api/asset/" ++ tag)) = .ok resp)
    (hRead : resp.BodyErr = none)
    (hCode : 200 ≤ resp.StatusCode ∧ resp.StatusCode < 400)
    (hEmpty : resp.Body = "") :
    (c.GetAsset env tag w).1 = (some {}, some "unexpected end of JSON input") ∧
    (c.GetAsset env tag w).1 ≠ (none, none) := by
  have hgood : ¬ badStatus resp.StatusCode := by
    unfold badStatus; omega
  have hreq := Request_answered env c "GET" ("/api/asset/" ++ tag) none w resp
    (by simpa [effectiveMethod, Client.urlOf, String.append_assoc] using hNew)
    (by simpa [effectiveMethod, Client.urlOf, String.append_assoc] using hDo) hRead
  rw [if_neg hgood] at hreq
  unfold Client.GetAsset
  rw [if_neg hTag]
  simp [hreq, hEmpty, Unmarshal]

/-- Witness of C8: a 200 answer without a body to the request for `web01`. -/
theorem GetAsset_empty_body_witness :
    "web01" ≠ "" ∧
    (sampleClient.GetAsset (sampleEnv (always 200 "")) "web01" init).1 =
      (some {}, some "unexpected end of JSON input") := by
  refine ⟨by decide, ?_⟩
  exact (GetAsset_empty_body (sampleEnv (always 200 "")) sampleClient "web01" init
    { StatusCode := 200, Body := "" } (by decide) (by decide) rfl rfl (by decide) rfl).1

/-- C9, the claim as stated fails: a client whose base URL is `:` gets no
request built (`http.NewRequest` finds no protocol scheme), so
`GetAssetAddresses` issues no `GET` at all, in the initial package state
already. -/
theorem no_request_for_addresses_on_bad_base_url :
    ((New "admin" "secret" ":").GetAssetAddresses (sampleEnv (always 200 okJSON)) "web01"
      (runCalls (sampleEnv (always 200 okJSON)) [] init)).2.trace = [] := by
  decide

/-- C9, amended: in every package state reached from the initial one by a
sequence of calls of the client operations, the shared default parameters
hold exactly the key size with the one value `500`, which encodes to
`size=500`; there `GetAssetAddresses` issues one `GET` on base URL +
`/asset/` + tag + `/addresses?size=500` when `http.NewRequest` accepts that
URL, and no request when it does not. -/
theorem GetAssetAddresses_default_size (env : Env) (calls : List Call) (c : Client)
    (tag : String) :
    (runCalls env calls init).defaultParams = some [("size", ["500"])] ∧
    Values.Encode (runCalls env calls init).defaultParams = "size=500" ∧
    (c.GetAssetAddresses env tag (runCalls env calls init)).2.trace =
      (runCalls env calls init).trace ++
        c.requestsOf env "GET" (c.url ++ "/asset/" ++ tag ++ "/addresses?size=500") := by
  have hinv := runCalls_defaultParams env calls init init_defaultParams
  refine ⟨hinv, by rw [hinv]; exact sizeOnly_Encode, ?_⟩
  rw [GetAssetAddresses_world, (Request_trace env c _ _ _ _).1, hinv]
  simp [effectiveMethod, Client.urlOf, sizeOnly_Encode, String.append_assoc]

end Collins
